import Mathlib

/-!
Verification of the generation-session state machine of the Morphic UI
single-page application (`src/app/page.tsx`). The embedding models the
React component state of `Home` (the Session aggregate: app state,
turn log, version store, active version id, version counter) and the
operations `submit`, `restoreVersion`, `reset` and preview selection,
translated directly from the source.
-/

namespace MorphicUI

/-- The `AppState` union type of `page.tsx`:
`"idle" | "thinking" | "rendered" | "error"`. -/
inductive AppState where
  | idle
  | thinking
  | rendered
  | error
deriving DecidableEq, Repr

/-- The role of a conversation turn (`HistoryTurn.role`). -/
inductive Role where
  | user
  | assistant
deriving DecidableEq, Repr

/-- `HistoryTurn` of `page.tsx`: one message of the conversation context. -/
structure HistoryTurn where
  role : Role
  content : String
deriving DecidableEq, Repr

/-- A document fragment (one element of `data.messages`): opaque to the
core, modelled as its serialized text. -/
abbrev Doc := String

/-- `UIVersion` of `page.tsx`: a snapshot binding a generated document to
the prompt and turn log that produced it. `timestamp` is the wall-clock
instant of creation, modelled as a natural number. -/
structure UIVersion where
  id : Nat
  prompt : String
  messages : List Doc
  history : List HistoryTurn
  timestamp : Nat
deriving DecidableEq, Repr

/-- The Session aggregate: the React state of `Home` that the session
state machine mutates (`input`, `state`, `a2uiMessages`, `lastPrompt`,
`errorMsg`, `history`, `versions`, `activeVersionId`) together with the
`versionCounter` ref. -/
structure Session where
  input : String
  state : AppState
  a2uiMessages : List Doc
  lastPrompt : String
  errorMsg : String
  history : List HistoryTurn
  versions : List UIVersion
  activeVersionId : Nat
  versionCounter : Nat
deriving DecidableEq, Repr

/-- The body of a generator response as read by `submit`:
`data.error` and `data.text` (JS string truthiness: the empty string
stands for absent/falsy), and `data.messages` (the empty list stands
for absent or empty). -/
structure GenBody where
  error : String
  text : String
  messages : List Doc
deriving DecidableEq, Repr

/-- The outcome of the `fetch("/api/generate", ...)` call:
either the promise rejects (transport failure) or a response arrives
with `res.ok`, a status code, and a decoded JSON body. -/
inductive FetchOutcome where
  | transportError (msg : String)
  | response (ok : Bool) (status : Nat) (body : GenBody)
deriving DecidableEq, Repr

/-- What the `try` block concludes about the fetch outcome: the thrown
message, or the usable `(data.text, data.messages)` pair. -/
inductive DecodeResult where
  | failure (msg : String)
  | success (text : String) (messages : List Doc)
deriving DecidableEq, Repr

/-- Decoding of the response inside the `try` block of `submit`:
`if (!res.ok) throw Server error; if (data.error) throw it;
if (!data.messages || data.messages.length === 0) throw no-UI;`
otherwise the pair `(data.text, data.messages)` is the success value. -/
def decodeOutcome : FetchOutcome → DecodeResult
  | FetchOutcome.transportError msg => DecodeResult.failure msg
  | FetchOutcome.response ok status body =>
      if ok = false then DecodeResult.failure ("Server error: " ++ toString status)
      else if body.error ≠ "" then DecodeResult.failure body.error
      else if body.messages = [] then
        DecodeResult.failure "Claude generated no UI — try rephrasing"
      else DecodeResult.success body.text body.messages

/-- JS `String.prototype.trim`: strips whitespace from both ends of the
string, modelled structurally over the character list (the built-in
trim of the host language is observationally the same operation). -/
def jsTrim (s : String) : String :=
  ⟨((s.data.dropWhile Char.isWhitespace).reverse.dropWhile
      Char.isWhitespace).reverse⟩

/-- Serialization of the message list (`JSON.stringify(data.messages)`),
modelled over the opaque fragments. -/
def stringifyDocs (ms : List Doc) : String :=
  "[" ++ String.intercalate "," ms ++ "]"

/-- The content of the synthesized assistant turn:
`data.text ? text + separator + JSON : JSON`. -/
def assistantContent (text : String) (ms : List Doc) : String :=
  if text ≠ "" then text ++ "\n---a2ui_JSON---\n" ++ stringifyDocs ms
  else stringifyDocs ms

/-- The guard at the top of `submit`:
`if (!trimmed || state === "thinking") return;`. -/
def submitRejected (s : Session) (prompt : String) : Prop :=
  jsTrim prompt = "" ∨ s.state = AppState.thinking

instance (s : Session) (prompt : String) : Decidable (submitRejected s prompt) := by
  unfold submitRejected; infer_instance

/-- The state mutations `submit` performs before the fetch is dispatched:
records the trimmed prompt, clears the input and any prior error,
enters `thinking`; when not refining it also clears messages, turn log
and version store and resets the version counter. -/
def submitStart (s : Session) (prompt : String) (isRefinement : Bool) : Session :=
  let trimmed := jsTrim prompt
  let s1 : Session :=
    { s with lastPrompt := trimmed, input := "", state := AppState.thinking,
             errorMsg := "" }
  if isRefinement then s1
  else { s1 with a2uiMessages := [], history := [], versions := [],
                 versionCounter := 0 }

/-- `historyToSend = isRefinement ? history : []` — the context turn log
shipped to the generator, read from the pre-submission session. -/
def historyToSend (s : Session) (isRefinement : Bool) : List HistoryTurn :=
  if isRefinement then s.history else []

/-- The request `submit` sends to `/api/generate`, or `none` when the
guard rejects the call and no request is dispatched. -/
def requestSent (s : Session) (prompt : String) (isRefinement : Bool) :
    Option (String × List HistoryTurn) :=
  if submitRejected s prompt then none
  else some (jsTrim prompt, historyToSend s isRefinement)

/-- Completion of a dispatched `submit`: on a decoded failure, records
the message and enters `error`; on success, appends the user turn and
the synthesized assistant turn to the captured context, increments the
version counter, appends the new `UIVersion`, makes it active, and
enters `rendered`. `now` is the wall clock read by `new Date()`. -/
def submitFinish (s : Session) (trimmed : String) (hist : List HistoryTurn)
    (outcome : FetchOutcome) (now : Nat) : Session :=
  match decodeOutcome outcome with
  | DecodeResult.failure msg => { s with errorMsg := msg, state := AppState.error }
  | DecodeResult.success text messages =>
      let newHistory := hist ++
        [⟨Role.user, trimmed⟩, ⟨Role.assistant, assistantContent text messages⟩]
      let newId := s.versionCounter + 1
      let v : UIVersion :=
        { id := newId, prompt := trimmed, messages := messages,
          history := newHistory, timestamp := now }
      { s with a2uiMessages := messages, history := newHistory,
               versions := s.versions ++ [v], activeVersionId := newId,
               versionCounter := newId, state := AppState.rendered }

/-- The whole `submit(prompt, isRefinement)` round, from guard to
settlement of the single fetch, as one atomic function of the session:
the `Generating` guard makes the round atomic in the source as well,
since no other mutating operation can run while `state === "thinking"`. -/
def submit (s : Session) (prompt : String) (isRefinement : Bool)
    (outcome : FetchOutcome) (now : Nat) : Session :=
  if submitRejected s prompt then s
  else submitFinish (submitStart s prompt isRefinement) (jsTrim prompt)
        (historyToSend s isRefinement) outcome now

/-- `Array.prototype.findIndex`: index of the first match, `-1` when
there is none (returned as an integer, as in JS). -/
def findIndexAux (p : UIVersion → Bool) : List UIVersion → Option Nat
  | [] => none
  | v :: vs => if p v then some 0 else (findIndexAux p vs).map (· + 1)

/-- `versions.findIndex((v) => v.id === id)` of `restoreVersion`. -/
def jsFindIndex (vs : List UIVersion) (targetId : Nat) : Int :=
  match findIndexAux (fun v => v.id == targetId) vs with
  | some i => (i : Int)
  | none => -1

/-- `restoreVersion(version)` of `page.tsx`: adopts the document, turn
log, prompt and id of the snapshot, re-enters `rendered`, truncates the
version store with `prev.slice(0, prev.findIndex(...) + 1)`, and resets
the version counter to the id of the snapshot. -/
def restoreVersion (s : Session) (v : UIVersion) : Session :=
  { s with a2uiMessages := v.messages, history := v.history,
           lastPrompt := v.prompt, activeVersionId := v.id,
           state := AppState.rendered,
           versions := s.versions.take (jsFindIndex s.versions v.id + 1).toNat,
           versionCounter := v.id }

/-- `reset()` of `page.tsx` (the explicit start-over action). -/
def reset (s : Session) : Session :=
  { s with state := AppState.idle, a2uiMessages := [], input := "",
           errorMsg := "", history := [], versions := [],
           activeVersionId := 0, versionCounter := 0 }

/-- The full component state: the Session aggregate plus the
`previewVersion` overlay slot, which is UI state outside the Session. -/
structure App where
  session : Session
  previewVersion : Option UIVersion
deriving DecidableEq, Repr

/-- Opening a preview: `onSelect={setPreviewVersion}` in the timeline —
the only mutation is the overlay slot. -/
def selectPreview (a : App) (v : UIVersion) : App :=
  { a with previewVersion := some v }

/-- Closing a preview: `setPreviewVersion(null)`. -/
def closePreview (a : App) : App :=
  { a with previewVersion := none }

/-- The read-only view the preview modal renders. -/
def previewView (a : App) : Option UIVersion :=
  a.previewVersion

/-- The lineage invariant of the version store: ids are the contiguous
run `k+1, k+2, ...` along the list. -/
def idsFrom : Nat → List UIVersion → Bool
  | _, [] => true
  | k, v :: vs => v.id == k + 1 && idsFrom (k + 1) vs

/-- A healthy session lineage: version ids run `1..length` and the
counter sits at the last allocated id. -/
def lineageOk (s : Session) : Prop :=
  idsFrom 0 s.versions = true ∧ s.versionCounter = s.versions.length

/-- A sequence of `submit` rounds, each event carrying the prompt, the
refinement flag, the fetch outcome and the wall clock of one round. -/
def submitMany (s : Session) : List (String × Bool × FetchOutcome × Nat) → Session
  | [] => s
  | e :: es => submitMany (submit s e.1 e.2.1 e.2.2.1 e.2.2.2) es

/- Concrete data used by the witnesses: a session that ran the first
end-to-end scenario of the spec (one snapshot), and one that ran a
refinement on top of it (two snapshots). -/

/-- The user turn of the first example round. -/
def exTurnU : HistoryTurn := ⟨Role.user, "Build a contact form"⟩

/-- The assistant turn of the first example round. -/
def exTurnA : HistoryTurn := ⟨Role.assistant, "[f1]"⟩

/-- The snapshot created by the first example round. -/
def exV1 : UIVersion :=
  { id := 1, prompt := "Build a contact form", messages := ["f1"],
    history := [exTurnU, exTurnA], timestamp := 0 }

/-- The session immediately after the first example round. -/
def exSession : Session :=
  { input := "", state := AppState.rendered, a2uiMessages := ["f1"],
    lastPrompt := "Build a contact form", errorMsg := "",
    history := [exTurnU, exTurnA], versions := [exV1],
    activeVersionId := 1, versionCounter := 1 }

/-- The snapshot created by a refinement on top of `exV1`. -/
def exV2 : UIVersion :=
  { id := 2, prompt := "Add a phone field", messages := ["f2"],
    history := [exTurnU, exTurnA, ⟨Role.user, "Add a phone field"⟩,
                ⟨Role.assistant, "[f2]"⟩], timestamp := 1 }

/-- The session immediately after that refinement round. -/
def exSession2 : Session :=
  { input := "", state := AppState.rendered, a2uiMessages := ["f2"],
    lastPrompt := "Add a phone field", errorMsg := "",
    history := exV2.history, versions := [exV1, exV2],
    activeVersionId := 2, versionCounter := 2 }

/-- A successful generator outcome carrying one fragment. -/
def exOk : FetchOutcome := FetchOutcome.response true 200 ⟨"", "", ["f3"]⟩

/-- A transport failure of the generator call. -/
def exFail : FetchOutcome := FetchOutcome.transportError "network down"

/- Helper lemmas about the list functions and operations of the
embedding, shared by the claim theorems below. -/

lemma findIndexAux_eq_some (p : UIVersion → Bool) (vs : List UIVersion)
    (i : Nat) (v : UIVersion) (hi : vs.get? i = some v) (hv : p v = true)
    (hfirst : ∀ j w, j < i → vs.get? j = some w → p w = false) :
    findIndexAux p vs = some i := by
  induction vs generalizing i with
  | nil => simp at hi
  | cons a vt ih =>
    cases i with
    | zero =>
      simp only [List.get?_cons_zero, Option.some.injEq] at hi
      subst hi
      simp [findIndexAux, hv]
    | succ k =>
      have ha : p a = false := hfirst 0 a (Nat.succ_pos k) rfl
      have hrec : findIndexAux p vt = some k := by
        refine ih k ?_ ?_
        · simpa using hi
        · intro j w hj hw
          exact hfirst (j + 1) w (Nat.succ_lt_succ hj) (by simpa using hw)
      simp [findIndexAux, ha, hrec]

lemma findIndexAux_eq_none (p : UIVersion → Bool) (vs : List UIVersion)
    (h : ∀ w ∈ vs, p w = false) : findIndexAux p vs = none := by
  induction vs with
  | nil => rfl
  | cons a vt ih =>
    have ha : p a = false := h a (List.mem_cons_self a vt)
    have ht : findIndexAux p vt = none :=
      ih fun w hw => h w (List.mem_cons_of_mem a hw)
    simp [findIndexAux, ha, ht]

lemma idsFrom_get? (vs : List UIVersion) (k i : Nat) (v : UIVersion)
    (h : idsFrom k vs = true) (hi : vs.get? i = some v) : v.id = k + i + 1 := by
  induction vs generalizing k i with
  | nil => simp at hi
  | cons a vt ih =>
    simp only [idsFrom, Bool.and_eq_true, beq_iff_eq] at h
    cases i with
    | zero =>
      simp only [List.get?_cons_zero, Option.some.injEq] at hi
      subst hi
      omega
    | succ j =>
      have := ih (k + 1) j h.2 (by simpa using hi)
      omega

lemma idsFrom_take (vs : List UIVersion) (k m : Nat)
    (h : idsFrom k vs = true) : idsFrom k (vs.take m) = true := by
  induction vs generalizing k m with
  | nil => simp [idsFrom]
  | cons a vt ih =>
    cases m with
    | zero => simp [idsFrom]
    | succ j =>
      simp only [idsFrom, Bool.and_eq_true, beq_iff_eq] at h
      simp only [List.take_succ_cons, idsFrom, Bool.and_eq_true, beq_iff_eq]
      exact ⟨h.1, ih (k + 1) j h.2⟩

lemma idsFrom_append_one (vs : List UIVersion) (k : Nat) (v : UIVersion)
    (h : idsFrom k vs = true) (hv : v.id = k + vs.length + 1) :
    idsFrom k (vs ++ [v]) = true := by
  induction vs generalizing k with
  | nil =>
    simp only [List.nil_append, idsFrom, Bool.and_eq_true, beq_iff_eq]
    simp at hv
    exact ⟨hv, trivial⟩
  | cons a vt ih =>
    simp only [idsFrom, Bool.and_eq_true, beq_iff_eq] at h
    simp only [List.cons_append, idsFrom, Bool.and_eq_true, beq_iff_eq]
    refine ⟨h.1, ih (k + 1) h.2 ?_⟩
    simp only [List.length_cons] at hv
    omega

lemma idsFrom_mem_le (vs : List UIVersion) (k : Nat)
    (h : idsFrom k vs = true) : ∀ w ∈ vs, w.id ≤ k + vs.length := by
  induction vs generalizing k with
  | nil => simp
  | cons a vt ih =>
    simp only [idsFrom, Bool.and_eq_true, beq_iff_eq] at h
    intro w hw
    rcases List.mem_cons.mp hw with hwa | hwt
    · subst hwa; simp; omega
    · have := ih (k + 1) h.2 w hwt
      simp only [List.length_cons]
      omega

/-- Claim C1: a `submit` call whose prompt trims to empty, or issued
while the session is generating (`thinking`), is a no-op: the session
is unchanged and no request is sent. Moreover, once an accepted
submission has entered `thinking`, a second `submit` issued before the
first settles changes nothing and sends nothing, so a successful round
creates exactly one snapshot. -/
theorem submit_guard_noop (s : Session) (p p2 : String) (b b2 : Bool)
    (o o2 : FetchOutcome) (n n2 : Nat) :
    (submitRejected s p → submit s p b o n = s ∧ requestSent s p b = none) ∧
    (¬ submitRejected s p →
      (submitStart s p b).state = AppState.thinking ∧
      submit (submitStart s p b) p2 b2 o2 n2 = submitStart s p b ∧
      requestSent (submitStart s p b) p2 b2 = none ∧
      ∀ t m, decodeOutcome o = DecodeResult.success t m →
        (submit s p b o n).versions.length
          = (submitStart s p b).versions.length + 1) := by
  constructor
  · intro h
    simp [submit, requestSent, h]
  · intro h
    have hst : (submitStart s p b).state = AppState.thinking := by
      unfold submitStart
      cases b <;> simp
    have hbusy : submitRejected (submitStart s p b) p2 := Or.inr hst
    refine ⟨hst, ?_, ?_, ?_⟩
    · simp [submit, hbusy]
    · simp [requestSent, hbusy]
    · intro t m hok
      simp [submit, h, submitFinish, hok]

/-- Witness for `submit_guard_noop` at concrete inputs: the empty-prompt
guard fires on `"  "`, and from `exSession` the accepted round with a
pending second submission creates exactly one snapshot. -/
theorem submit_guard_noop_witness :
    (submit exSession "  " true exOk 4 = exSession ∧
      requestSent exSession "  " true = none) ∧
    (submit (submitStart exSession "Add a phone field" true) "steal" true exFail 9
        = submitStart exSession "Add a phone field" true ∧
      (submit exSession "Add a phone field" true exOk 4).versions.length
        = (submitStart exSession "Add a phone field" true).versions.length + 1) := by
  have h1 := (submit_guard_noop exSession "  " "x" true true exOk exOk 4 4).1 (by decide)
  have h2 := (submit_guard_noop exSession "Add a phone field" "steal" true true
      exOk exFail 4 9).2 (by decide)
  exact ⟨h1, h2.2.1, h2.2.2.2 "" ["f3"] (by decide)⟩

/-- Claim C8: an accepted non-refinement `submit` clears the turn log,
the version store, the rendered document and the version counter before
the fetch is dispatched, and the context it sends to the generator is
empty; an accepted refinement sends the current turn log. -/
theorem fresh_submit_clears_and_context (s : Session) (p : String)
    (hacc : ¬ submitRejected s p) :
    (submitStart s p false).history = [] ∧
    (submitStart s p false).versions = [] ∧
    (submitStart s p false).versionCounter = 0 ∧
    (submitStart s p false).a2uiMessages = [] ∧
    requestSent s p false = some (jsTrim p, []) ∧
    requestSent s p true = some (jsTrim p, s.history) := by
  simp [submitStart, requestSent, hacc, historyToSend]

/-- Witness for `fresh_submit_clears_and_context` on `exSession2`. -/
theorem fresh_submit_clears_and_context_witness :
    (submitStart exSession2 "Start over please" false).history = [] ∧
    (submitStart exSession2 "Start over please" false).versions = [] ∧
    (submitStart exSession2 "Start over please" false).versionCounter = 0 ∧
    (submitStart exSession2 "Start over please" false).a2uiMessages = [] ∧
    requestSent exSession2 "Start over please" false
      = some (jsTrim "Start over please", []) ∧
    requestSent exSession2 "Start over please" true
      = some (jsTrim "Start over please", exSession2.history) :=
  fresh_submit_clears_and_context exSession2 "Start over please" (by decide)

/-- Claim C9: opening a preview mutates only the overlay slot: the
Session aggregate (turn log, version store, active id, document, state)
is untouched, and two consecutive previews with no intervening mutation
yield equal read-only views while still leaving the Session equal to
the original. -/
theorem preview_no_session_change (a : App) (v : UIVersion) :
    (selectPreview a v).session = a.session ∧
    previewView (selectPreview a v) = some v ∧
    (selectPreview (selectPreview a v) v).session = a.session ∧
    previewView (selectPreview (selectPreview a v) v)
      = previewView (selectPreview a v) ∧
    (closePreview (selectPreview a v)).session = a.session := by
  simp [selectPreview, closePreview, previewView]

/-- Claim C10: restoring a version whose id is absent from the store
makes `findIndex` return `-1`, so the store is truncated to the empty
list, while the session still adopts the version and re-enters
`rendered` — nothing signals the contract violation. -/
theorem restore_missing_id (s : Session) (v : UIVersion)
    (habs : ∀ w ∈ s.versions, w.id ≠ v.id) :
    jsFindIndex s.versions v.id = -1 ∧
    (restoreVersion s v).versions = [] ∧
    (restoreVersion s v).state = AppState.rendered ∧
    (restoreVersion s v).a2uiMessages = v.messages ∧
    (restoreVersion s v).history = v.history ∧
    (restoreVersion s v).lastPrompt = v.prompt ∧
    (restoreVersion s v).activeVersionId = v.id ∧
    (restoreVersion s v).versionCounter = v.id := by
  have hnone : findIndexAux (fun w => w.id == v.id) s.versions = none := by
    refine findIndexAux_eq_none _ _ ?_
    intro w hw
    simpa using habs w hw
  have hfi : jsFindIndex s.versions v.id = -1 := by
    simp [jsFindIndex, hnone]
  refine ⟨hfi, ?_, rfl, rfl, rfl, rfl, rfl, rfl⟩
  simp [restoreVersion, hfi]

/-- Witness for `restore_missing_id`: restoring a phantom version with
id 7 on `exSession2` empties the store yet lands in `rendered`. -/
theorem restore_missing_id_witness :
    jsFindIndex exSession2.versions 7 = -1 ∧
    (restoreVersion exSession2 ⟨7, "ghost", ["g"], [], 9⟩).versions = [] ∧
    (restoreVersion exSession2 ⟨7, "ghost", ["g"], [], 9⟩).state
      = AppState.rendered ∧
    (restoreVersion exSession2 ⟨7, "ghost", ["g"], [], 9⟩).a2uiMessages = ["g"] ∧
    (restoreVersion exSession2 ⟨7, "ghost", ["g"], [], 9⟩).history = [] ∧
    (restoreVersion exSession2 ⟨7, "ghost", ["g"], [], 9⟩).lastPrompt = "ghost" ∧
    (restoreVersion exSession2 ⟨7, "ghost", ["g"], [], 9⟩).activeVersionId = 7 ∧
    (restoreVersion exSession2 ⟨7, "ghost", ["g"], [], 9⟩).versionCounter = 7 :=
  restore_missing_id exSession2 ⟨7, "ghost", ["g"], [], 9⟩ (by decide)

/-- Counterexample to claim C2 as stated: a failing non-refinement
submission does not leave the turn log and version store at their
pre-submission values, because `submit` clears both before the fetch is
dispatched and failure does not restore them. From `exSession` (one
snapshot, two turns), a fresh prompt that meets a transport error
leaves an empty store and an empty log. -/
theorem failed_fresh_submit_wipes_history :
    (submit exSession "Make a dashboard" false exFail 5).versions
        ≠ exSession.versions ∧
    (submit exSession "Make a dashboard" false exFail 5).history
        ≠ exSession.history ∧
    (submit exSession "Make a dashboard" false exFail 5).state
        = AppState.error := by
  decide

/-- Claim C2 as amended: a failing submission records the error message,
moves to `error`, and never touches `activeVersionId`; a failing
refinement leaves turn log, version store and counter exactly at their
pre-submission values, while a failing non-refinement leaves them at
the cleared values (empty log, empty store, counter zero) they were
given before the fetch. -/
theorem failed_submit_frame (s : Session) (p : String) (b : Bool)
    (o : FetchOutcome) (n : Nat) (msg : String)
    (hacc : ¬ submitRejected s p)
    (hfail : decodeOutcome o = DecodeResult.failure msg) :
    (submit s p b o n).state = AppState.error ∧
    (submit s p b o n).errorMsg = msg ∧
    (submit s p b o n).activeVersionId = s.activeVersionId ∧
    (b = true → (submit s p b o n).history = s.history ∧
      (submit s p b o n).versions = s.versions ∧
      (submit s p b o n).versionCounter = s.versionCounter) ∧
    (b = false → (submit s p b o n).history = [] ∧
      (submit s p b o n).versions = [] ∧
      (submit s p b o n).versionCounter = 0) := by
  cases b <;> simp [submit, hacc, submitFinish, hfail, submitStart]

/-- Witness for `failed_submit_frame`: a failing refinement on
`exSession2` keeps its two snapshots and four turns intact. -/
theorem failed_submit_frame_witness :
    (submit exSession2 "Add a search box" true exFail 6).state
      = AppState.error ∧
    (submit exSession2 "Add a search box" true exFail 6).errorMsg
      = "network down" ∧
    (submit exSession2 "Add a search box" true exFail 6).activeVersionId
      = exSession2.activeVersionId ∧
    (submit exSession2 "Add a search box" true exFail 6).history
      = exSession2.history ∧
    (submit exSession2 "Add a search box" true exFail 6).versions
      = exSession2.versions ∧
    (submit exSession2 "Add a search box" true exFail 6).versionCounter
      = exSession2.versionCounter := by
  have h := failed_submit_frame exSession2 "Add a search box" true exFail 6
      "network down" (by decide) (by decide)
  exact ⟨h.1, h.2.1, h.2.2.1, (h.2.2.2.1 rfl).1, (h.2.2.2.1 rfl).2.1,
    (h.2.2.2.1 rfl).2.2⟩

/-- Claim C7: a successful round appends exactly the user turn and the
synthesized assistant turn to the context it captured, so a refinement
grows the log by two (preserving evenness) and a fresh round leaves a
log of length two; and the snapshot appended by the round stores
exactly the turn log the session now carries. -/
theorem successful_round_turn_log (s : Session) (p : String) (b : Bool)
    (o : FetchOutcome) (n : Nat) (t : String) (m : List Doc)
    (hacc : ¬ submitRejected s p)
    (hok : decodeOutcome o = DecodeResult.success t m) :
    (submit s p b o n).history
      = historyToSend s b ++
        [⟨Role.user, jsTrim p⟩, ⟨Role.assistant, assistantContent t m⟩] ∧
    (Even s.history.length → Even (submit s p b o n).history.length) ∧
    (b = false → (submit s p b o n).history.length = 2) ∧
    (∃ w, (submit s p b o n).versions.getLast? = some w ∧
      w.history = (submit s p b o n).history) := by
  have hhist : (submit s p b o n).history
      = historyToSend s b ++
        [⟨Role.user, jsTrim p⟩, ⟨Role.assistant, assistantContent t m⟩] := by
    cases b <;>
      simp [submit, hacc, submitFinish, hok, submitStart, historyToSend]
  refine ⟨hhist, ?_, ?_, ?_⟩
  · intro he
    rw [hhist]
    cases b <;> simp [historyToSend]
    simpa [Nat.even_add] using he
  · intro hb
    subst hb
    rw [hhist]
    simp [historyToSend]
  · cases b <;>
      simp [submit, hacc, submitFinish, hok, submitStart, historyToSend]

/-- Witness for `successful_round_turn_log`: the refinement round of the
second end-to-end scenario, replayed on `exSession`. -/
theorem successful_round_turn_log_witness :
    (submit exSession "Add a phone field" true exOk 1).history
      = historyToSend exSession true ++
        [⟨Role.user, jsTrim "Add a phone field"⟩,
         ⟨Role.assistant, assistantContent "" ["f3"]⟩] ∧
    (Even exSession.history.length →
      Even (submit exSession "Add a phone field" true exOk 1).history.length) ∧
    (true = false →
      (submit exSession "Add a phone field" true exOk 1).history.length = 2) ∧
    (∃ w, (submit exSession "Add a phone field" true exOk 1).versions.getLast?
        = some w ∧
      w.history = (submit exSession "Add a phone field" true exOk 1).history) :=
  successful_round_turn_log exSession "Add a phone field" true exOk 1 "" ["f3"]
    (by decide) (by decide)

lemma restoreVersion_versions_eq (s : Session) (v : UIVersion) (i : Nat)
    (hi : s.versions.get? i = some v)
    (hfirst : ∀ j w, j < i → s.versions.get? j = some w → w.id ≠ v.id) :
    (restoreVersion s v).versions = s.versions.take i ++ [v] := by
  have haux : findIndexAux (fun w => w.id == v.id) s.versions = some i := by
    refine findIndexAux_eq_some _ _ i v hi (by simp) ?_
    intro j w hj hw
    simpa using hfirst j w hj hw
  have hfi : jsFindIndex s.versions v.id = (i : Int) := by
    simp [jsFindIndex, haux]
  have htoNat : ((i : Int) + 1).toNat = i + 1 := by omega
  have htake : (restoreVersion s v).versions = s.versions.take (i + 1) := by
    simp [restoreVersion, hfi, htoNat]
  rw [htake, List.take_succ, ← List.get?_eq_getElem?, hi]
  rfl

lemma submit_refine_success_eq (s : Session) (p : String) (o : FetchOutcome)
    (n : Nat) (t : String) (m : List Doc)
    (hacc : ¬ submitRejected s p)
    (hok : decodeOutcome o = DecodeResult.success t m) :
    submit s p true o n =
      { s with
        input := "", errorMsg := "", lastPrompt := jsTrim p,
        a2uiMessages := m,
        history := s.history ++
          [⟨Role.user, jsTrim p⟩, ⟨Role.assistant, assistantContent t m⟩],
        versions := s.versions ++ [⟨s.versionCounter + 1, jsTrim p, m,
          s.history ++
            [⟨Role.user, jsTrim p⟩, ⟨Role.assistant, assistantContent t m⟩],
          n⟩],
        activeVersionId := s.versionCounter + 1,
        versionCounter := s.versionCounter + 1,
        state := AppState.rendered } := by
  simp [submit, hacc, submitStart, submitFinish, hok, historyToSend]

lemma lineageOk_submit (s : Session) (p : String) (b : Bool)
    (o : FetchOutcome) (n : Nat) (h : lineageOk s) :
    lineageOk (submit s p b o n) := by
  by_cases hrej : submitRejected s p
  · simpa [submit, hrej] using h
  · cases b with
    | false =>
      cases hdec : decodeOutcome o with
      | failure msg =>
        simp [lineageOk, submit, hrej, submitStart, submitFinish, hdec, idsFrom]
      | success t m =>
        simp [lineageOk, submit, hrej, submitStart, submitFinish, hdec, idsFrom]
    | true =>
      obtain ⟨h1, h2⟩ := h
      cases hdec : decodeOutcome o with
      | failure msg =>
        exact ⟨by simpa [submit, hrej, submitStart, submitFinish, hdec] using h1,
          by simpa [submit, hrej, submitStart, submitFinish, hdec] using h2⟩
      | success t m =>
        constructor
        · simp only [submit, hrej, if_neg, submitStart, submitFinish, hdec,
            historyToSend]
          refine idsFrom_append_one _ 0 _ h1 ?_
          simp [h2]
        · simp [submit, hrej, submitStart, submitFinish, hdec, h2]

lemma lineageOk_submitMany (s : Session)
    (evs : List (String × Bool × FetchOutcome × Nat)) (h : lineageOk s) :
    lineageOk (submitMany s evs) := by
  induction evs generalizing s with
  | nil => simpa [submitMany] using h
  | cons e es ih =>
    exact ih _ (lineageOk_submit s e.1 e.2.1 e.2.2.1 e.2.2.2 h)

/-- Claim C4: restoring a snapshot that sits in the store (at position
`i`, the first position carrying its id) truncates the store to the
prefix ending at that snapshot inclusive, adopts its turn log, document
and prompt, makes it active, resets the counter to its id, and
re-enters `rendered` (the Displaying state). -/
theorem restore_effect (s : Session) (v : UIVersion) (i : Nat)
    (hi : s.versions.get? i = some v)
    (hfirst : ∀ j w, j < i → s.versions.get? j = some w → w.id ≠ v.id) :
    (restoreVersion s v).versions = s.versions.take i ++ [v] ∧
    (restoreVersion s v).history = v.history ∧
    (restoreVersion s v).a2uiMessages = v.messages ∧
    (restoreVersion s v).lastPrompt = v.prompt ∧
    (restoreVersion s v).activeVersionId = v.id ∧
    (restoreVersion s v).versionCounter = v.id ∧
    (restoreVersion s v).state = AppState.rendered :=
  ⟨restoreVersion_versions_eq s v i hi hfirst, rfl, rfl, rfl, rfl, rfl, rfl⟩

/-- Witness for `restore_effect`: restoring snapshot 1 of the
two-snapshot session discards snapshot 2. -/
theorem restore_effect_witness :
    (restoreVersion exSession2 exV1).versions
      = exSession2.versions.take 0 ++ [exV1] ∧
    (restoreVersion exSession2 exV1).history = exV1.history ∧
    (restoreVersion exSession2 exV1).a2uiMessages = exV1.messages ∧
    (restoreVersion exSession2 exV1).lastPrompt = exV1.prompt ∧
    (restoreVersion exSession2 exV1).activeVersionId = exV1.id ∧
    (restoreVersion exSession2 exV1).versionCounter = exV1.id ∧
    (restoreVersion exSession2 exV1).state = AppState.rendered :=
  restore_effect exSession2 exV1 0 (by decide)
    (fun j w hj _ => absurd hj (Nat.not_lt_zero j))

/-- Claim C5: in a store whose ids run `1..n`, restoring the snapshot
at position `i` (so with id `i + 1`) and then submitting a successful
refinement yields a snapshot with the next id, and the store then holds
exactly the retained prefix plus that one successor — every snapshot of
the abandoned suffix is gone, and no id exceeds the successor id. -/
theorem restore_then_submit_ids (s : Session) (v : UIVersion) (i : Nat)
    (p : String) (o : FetchOutcome) (n : Nat) (t : String) (m : List Doc)
    (hids : idsFrom 0 s.versions = true)
    (hi : s.versions.get? i = some v)
    (hp : ¬ jsTrim p = "")
    (hok : decodeOutcome o = DecodeResult.success t m) :
    v.id = i + 1 ∧
    (submit (restoreVersion s v) p true o n).versions
      = (s.versions.take i ++ [v]) ++
        [⟨v.id + 1, jsTrim p, m,
          v.history ++ [⟨Role.user, jsTrim p⟩,
            ⟨Role.assistant, assistantContent t m⟩], n⟩] ∧
    (submit (restoreVersion s v) p true o n).activeVersionId = v.id + 1 ∧
    idsFrom 0 (submit (restoreVersion s v) p true o n).versions = true ∧
    ∀ w ∈ (submit (restoreVersion s v) p true o n).versions,
      w.id ≤ v.id + 1 := by
  have hvid : v.id = i + 1 := by
    simpa using idsFrom_get? s.versions 0 i v hids hi
  have hfirst : ∀ j w, j < i → s.versions.get? j = some w → w.id ≠ v.id := by
    intro j w hj hw
    have := idsFrom_get? s.versions 0 j w hids hw
    omega
  have hr : (restoreVersion s v).versions = s.versions.take i ++ [v] :=
    restoreVersion_versions_eq s v i hi hfirst
  have hracc : ¬ submitRejected (restoreVersion s v) p := by
    simp [submitRejected, restoreVersion, hp]
  have hsub := submit_refine_success_eq (restoreVersion s v) p o n t m hracc hok
  have hlen : i < s.versions.length := (List.get?_eq_some.mp hi).1
  have hitake : (s.versions.take i ++ [v]).length = i + 1 := by
    simp [List.length_take]
    omega
  have hvers : (submit (restoreVersion s v) p true o n).versions
      = (s.versions.take i ++ [v]) ++
        [⟨v.id + 1, jsTrim p, m,
          v.history ++ [⟨Role.user, jsTrim p⟩,
            ⟨Role.assistant, assistantContent t m⟩], n⟩] := by
    rw [hsub]
    simp only [hr]
    rfl
  have hpre : idsFrom 0 (s.versions.take i ++ [v]) = true := by
    have : s.versions.take i ++ [v] = s.versions.take (i + 1) := by
      rw [List.take_succ, ← List.get?_eq_getElem?, hi]
      rfl
    rw [this]
    exact idsFrom_take s.versions 0 (i + 1) hids
  have hfin : idsFrom 0 ((s.versions.take i ++ [v]) ++
      [⟨v.id + 1, jsTrim p, m,
        v.history ++ [⟨Role.user, jsTrim p⟩,
          ⟨Role.assistant, assistantContent t m⟩], n⟩]) = true := by
    refine idsFrom_append_one _ 0 _ hpre ?_
    show v.id + 1 = 0 + (s.versions.take i ++ [v]).length + 1
    rw [hitake]
    omega
  refine ⟨hvid, hvers, ?_, ?_, ?_⟩
  · rw [hsub]
    rfl
  · rw [hvers]
    exact hfin
  · intro w hw
    rw [hvers] at hw
    have hle := idsFrom_mem_le _ 0 hfin w hw
    simp only [List.length_append, hitake, List.length_singleton] at hle
    omega

/-- Witness for `restore_then_submit_ids`: restore snapshot 1 of the
two-snapshot session, refine, and get snapshots with ids 1 and 2. -/
theorem restore_then_submit_ids_witness :
    exV1.id = 0 + 1 ∧
    (submit (restoreVersion exSession2 exV1) "Make it dark mode" true exOk 7).versions
      = (exSession2.versions.take 0 ++ [exV1]) ++
        [⟨exV1.id + 1, jsTrim "Make it dark mode", ["f3"],
          exV1.history ++ [⟨Role.user, jsTrim "Make it dark mode"⟩,
            ⟨Role.assistant, assistantContent "" ["f3"]⟩], 7⟩] ∧
    (submit (restoreVersion exSession2 exV1) "Make it dark mode" true exOk 7).activeVersionId
      = exV1.id + 1 ∧
    idsFrom 0 (submit (restoreVersion exSession2 exV1) "Make it dark mode" true exOk 7).versions
      = true := by
  have h := restore_then_submit_ids exSession2 exV1 0 "Make it dark mode" exOk 7
    "" ["f3"] (by decide) (by decide) (by decide) (by decide)
  exact ⟨h.1, h.2.1, h.2.2.1, h.2.2.2.1⟩

/-- Claim C6: the lineage invariant — version ids form the contiguous
run `1..length` with the counter at the last allocated id — is
preserved by every `submit` round and by every sequence of rounds; the
explicit reset empties the store and restarts the counter at zero, a
non-refinement round resets the counter to zero before proceeding, and
a successful non-refinement round produces the single snapshot of the
new lineage, with id 1. -/
theorem snapshot_id_lineage (s : Session) (p : String) (b : Bool)
    (o : FetchOutcome) (n : Nat) (t : String) (m : List Doc)
    (evs : List (String × Bool × FetchOutcome × Nat)) :
    (lineageOk s → lineageOk (submit s p b o n)) ∧
    (lineageOk s → lineageOk (submitMany s evs)) ∧
    (reset s).versionCounter = 0 ∧ (reset s).versions = [] ∧
    (submitStart s p false).versionCounter = 0 ∧
    (¬ submitRejected s p → decodeOutcome o = DecodeResult.success t m →
      (submit s p false o n).versions.map UIVersion.id = [1] ∧
      (submit s p false o n).versionCounter = 1) := by
  refine ⟨lineageOk_submit s p b o n, lineageOk_submitMany s evs,
    rfl, rfl, rfl, ?_⟩
  intro hacc hok
  constructor <;>
    simp [submit, hacc, submitStart, submitFinish, hok]

/-- Witness for `snapshot_id_lineage`: one refinement round and a
two-round sequence on the healthy `exSession`, and a fresh round
producing a single snapshot with id 1. -/
theorem snapshot_id_lineage_witness :
    lineageOk (submit exSession "Add a phone field" true exOk 3) ∧
    lineageOk (submitMany exSession
      [("Add a phone field", true, exOk, 3), ("Oops", true, exFail, 4)]) ∧
    (reset exSession).versionCounter = 0 ∧ (reset exSession).versions = [] ∧
    (submitStart exSession "New thing" false).versionCounter = 0 ∧
    (submit exSession "New thing" false exOk 3).versions.map UIVersion.id
      = [1] ∧
    (submit exSession "New thing" false exOk 3).versionCounter = 1 := by
  have h1 := snapshot_id_lineage exSession "Add a phone field" true exOk 3 ""
    ["f3"] [("Add a phone field", true, exOk, 3), ("Oops", true, exFail, 4)]
  have h2 := snapshot_id_lineage exSession "New thing" false exOk 3 "" ["f3"]
    ([] : List (String × Bool × FetchOutcome × Nat))
  have hlin : lineageOk exSession := ⟨by decide, by decide⟩
  have hfresh := h2.2.2.2.2.2 (by decide) (by decide)
  exact ⟨h1.1 hlin, h1.2.1 hlin, h1.2.2.1, h1.2.2.2.1, h2.2.2.2.2.1,
    hfresh.1, hfresh.2⟩

/-- Claim C3: temporal determinism of branching. If `sOrig` is the
session as it stood right after snapshot `v` was created (it is
`rendered`, carries the turn log, document, prompt, active id and
counter of `v`, and its store is exactly the prefix that a restore of
`v` retains), then a refinement submitted after `restoreVersion s v`
sends the same request to the generator as one submitted on `sOrig`,
and under the same generator outcome and clock produces the identical
resulting session, with the successor snapshot taking id `v.id + 1` on
success. -/
theorem restore_refinement_determinism (s sOrig : Session) (v : UIVersion)
    (p : String) (o : FetchOutcome) (n : Nat)
    (h1 : sOrig.state = AppState.rendered)
    (h2 : sOrig.history = v.history)
    (h3 : sOrig.a2uiMessages = v.messages)
    (_h4 : sOrig.lastPrompt = v.prompt)
    (h5 : sOrig.activeVersionId = v.id)
    (h6 : sOrig.versionCounter = v.id)
    (hpre : (restoreVersion s v).versions = sOrig.versions)
    (hp : ¬ jsTrim p = "") :
    requestSent (restoreVersion s v) p true = requestSent sOrig p true ∧
    requestSent (restoreVersion s v) p true = some (jsTrim p, v.history) ∧
    submit (restoreVersion s v) p true o n = submit sOrig p true o n ∧
    ∀ t m, decodeOutcome o = DecodeResult.success t m →
      (submit (restoreVersion s v) p true o n).activeVersionId = v.id + 1 := by
  have hracc : ¬ submitRejected (restoreVersion s v) p := by
    simp [submitRejected, restoreVersion, hp]
  have hoacc : ¬ submitRejected sOrig p := by
    simp [submitRejected, h1, hp]
  have hrhist : (restoreVersion s v).history = sOrig.history := by
    rw [h2]
    rfl
  have hstart : submitStart (restoreVersion s v) p true
      = submitStart sOrig p true := by
    simp only [submitStart, if_pos]
    simp [restoreVersion, Session.mk.injEq, h2, h3, h5, h6]
    exact (by simpa [restoreVersion] using hpre)
  have hmain : submit (restoreVersion s v) p true o n
      = submit sOrig p true o n := by
    simp only [submit, if_neg hracc, if_neg hoacc, historyToSend, if_pos,
      hstart, hrhist]
  refine ⟨?_, ?_, hmain, ?_⟩
  · simp [requestSent, hracc, hoacc, historyToSend, hrhist]
  · simp only [requestSent, historyToSend, if_neg hracc, if_pos]
    rfl
  · intro t m hok
    rw [submit_refine_success_eq (restoreVersion s v) p o n t m hracc hok]
    rfl

/-- Witness for `restore_refinement_determinism`: restoring snapshot 1
of the two-snapshot session and refining behaves exactly as refining
`exSession`, where snapshot 1 had just been created. -/
theorem restore_refinement_determinism_witness :
    requestSent (restoreVersion exSession2 exV1) "Make it dark mode" true
      = requestSent exSession "Make it dark mode" true ∧
    requestSent (restoreVersion exSession2 exV1) "Make it dark mode" true
      = some (jsTrim "Make it dark mode", exV1.history) ∧
    submit (restoreVersion exSession2 exV1) "Make it dark mode" true exOk 7
      = submit exSession "Make it dark mode" true exOk 7 ∧
    (submit (restoreVersion exSession2 exV1) "Make it dark mode" true exOk 7).activeVersionId
      = exV1.id + 1 := by
  have h := restore_refinement_determinism exSession2 exSession exV1
    "Make it dark mode" exOk 7 (by decide) (by decide) (by decide) (by decide)
    (by decide) (by decide) (by decide) (by decide)
  exact ⟨h.1, h.2.1, h.2.2.1, h.2.2.2 "" ["f3"] (by decide)⟩

end MorphicUI
